import Mathlib

/-!
Verification of the VGS buy-signal tracker (`src/app.py`).

The script downloads a daily close-price series, computes a trailing simple
moving average (SMA), drops the rows where the SMA is undefined, derives a
percent-below-SMA column, a 3-week-downtrend column from a weekly
Friday-anchored resample, a combined BUY column, and finally simulates a
fixed-amount purchase on every BUY row.

Embedding conventions:
* calendar dates are day numbers `d : ℕ`, with Friday characterised by
  `d % 7 = 4`; `anchor d` is the Friday on or after `d`, which is the label
  pandas gives `d`'s bin under a weekly Friday resample;
* prices are exact rationals `ℚ` (the pandas floats, read exactly);
* a pandas column with possible NaN holes is a `List (Option ℚ)`;
* `pct_change` is embedded NaN-propagating: a return is defined only when
  both the current and the previous weekly observation are present
  (`None` otherwise), and a NaN compared with `< 0` is `false`, as in NumPy.
-/

namespace VGS

/-- One observation of the raw daily price series: a calendar day number and
the close price (`data['Close']` at that date). -/
structure PricePoint where
  date : ℕ
  close : ℚ
deriving DecidableEq

/-- `data['Close'].rolling(window=w).mean()` (app.py line 46): at 0-indexed
position `i` the mean of the `w` closes ending at `i` when at least `w`
observations exist, `None` (NaN) otherwise. -/
def rollingMean (w : ℕ) (closes : List ℚ) : List (Option ℚ) :=
  (List.range closes.length).map fun i =>
    if w ≤ i + 1 then some (((closes.take (i + 1)).drop (i + 1 - w)).sum / (w : ℚ)) else none

/-- A row of the decorated frame after `dropna`: date, close and a defined
SMA value. -/
structure DecRow where
  date : ℕ
  close : ℚ
  sma : ℚ
deriving DecidableEq

/-- `data.dropna(subset=['Close','SMA'])` (app.py line 52): keep exactly the
rows whose rolling mean is defined, pairing each price point with the SMA at
its position. -/
def dropnaSMA (w : ℕ) (ps : List PricePoint) : List DecRow :=
  (ps.zip (rollingMean w (ps.map (·.close)))).filterMap fun pr =>
    (pr.2).map fun s => ⟨pr.1.date, pr.1.close, s⟩

/-- `data['% Below SMA']` (app.py line 61): `(close - sma) / sma * 100`. -/
def pctBelow (r : DecRow) : ℚ :=
  (r.close - r.sma) / r.sma * 100

/-- The Friday on or after day `d`: the label of `d`'s weekly bin under
`resample('W-FRI')`. -/
def anchor (d : ℕ) : ℕ :=
  d + (11 - d % 7) % 7

/-- Anchor of the first row of the frame: the label of the first weekly bin
produced by the resample. -/
def firstAnchor (rows : List DecRow) : ℕ :=
  match rows.head? with
  | some r => anchor r.date
  | none => 0

/-- Number of weekly bins the resample produces: one per Friday from the
first row's anchor to the last row's anchor inclusive. -/
def numWeeks (rows : List DecRow) : ℕ :=
  match rows.head?, rows.getLast? with
  | some a, some b => (anchor b.date - anchor a.date) / 7 + 1
  | _, _ => 0

/-- The value `resample('W-FRI').last()` gives the bin labelled `a`: the last
close among the rows whose anchor is `a`, `None` (NaN) when the bin is
empty. -/
def binLast (rows : List DecRow) (a : ℕ) : Option ℚ :=
  ((rows.filter fun r => anchor r.date == a).getLast?).map (·.close)

/-- `weekly = data['Close'].resample('W-FRI').last()` (app.py line 64) as the
list of bin values, one per weekly bin. -/
def weeklyCloses (rows : List DecRow) : List (Option ℚ) :=
  (List.range (numWeeks rows)).map fun k => binLast rows (firstAnchor rows + 7 * k)

/-- One step of `pct_change() * 100`: defined only when the previous and the
current weekly observation both exist. -/
def retOf : Option ℚ → Option ℚ → Option ℚ
  | some p, some c => some ((c - p) / p * 100)
  | _, _ => none

/-- `weekly_returns = weekly.pct_change() * 100` (app.py line 65): `None` at
position 0 and wherever an adjacent observation is missing. -/
def weeklyReturns (vs : List (Option ℚ)) : List (Option ℚ) :=
  (List.range vs.length).map fun k =>
    if k = 0 then none else retOf (vs.getD (k - 1) none) (vs.getD k none)

/-- A NaN-aware `x < 0` test: NumPy evaluates `nan < 0` to `False`. -/
def optNeg : Option ℚ → Bool
  | some x => decide (x < 0)
  | none => false

/-- The loop of app.py lines 66-71: week `k` is flagged iff `k ≥ 2` and the
weekly returns at `k`, `k-1`, `k-2` are all negative. -/
def weeklyFlags (rs : List (Option ℚ)) : List Bool :=
  (List.range rs.length).map fun k =>
    decide (2 ≤ k) && optNeg (rs.getD k none) && optNeg (rs.getD (k - 1) none)
      && optNeg (rs.getD (k - 2) none)

/-- The weekly return of bin `k`, as a possibly-missing rational. -/
def retAt (rows : List DecRow) (k : ℕ) : Option ℚ :=
  (weeklyReturns (weeklyCloses rows)).getD k none

/-- The anchor dates whose week is flagged: the index of
`weekly_flags[weekly_flags == 1]` (app.py line 76). -/
def flaggedAnchorDates (rows : List DecRow) : List ℕ :=
  (((List.range (numWeeks rows)).map fun k => firstAnchor rows + 7 * k).zip
      (weeklyFlags (weeklyReturns (weeklyCloses rows)))).filterMap
    fun ab => if ab.2 then some ab.1 else none

/-- `data['3-Week Downtrend']` at date `d` (app.py lines 75-78): `1` exactly
when `d` itself is one of the flagged anchor dates, else the default `0`. -/
def downtrendFlag (rows : List DecRow) (d : ℕ) : Bool :=
  (flaggedAnchorDates rows).contains d

/-- `data['BUY']` (app.py line 81): `% Below SMA < threshold` or the
downtrend flag of the row's date. -/
def buyFlag (θ : ℚ) (rows : List DecRow) (r : DecRow) : Bool :=
  decide (pctBelow r < θ) || downtrendFlag rows r.date

/-- The aggregate the script reports (app.py lines 87-91). -/
structure SimResult where
  totalInvested : ℚ
  totalUnits : ℚ
  currentPrice : ℚ
  currentValue : ℚ
  gain : ℚ
deriving DecidableEq

/-- The simulation of app.py lines 85-91: per-row invested amount and units
bought (zero on non-BUY rows), their sums, the close of the last row
(`data['Close'].iloc[-1]`, which raises on an empty frame, hence `Option`),
the mark-to-market value and the gain. -/
def simulate (amt θ : ℚ) (rows : List DecRow) : Option SimResult :=
  match (rows.map (·.close)).getLast? with
  | none => none
  | some price =>
    let invested := (rows.map fun r => if buyFlag θ rows r then amt else 0).sum
    let units := (rows.map fun r => if buyFlag θ rows r then amt / r.close else 0).sum
    some ⟨invested, units, price, units * price, units * price - invested⟩

/-- The delta shown by `st.metric` (app.py line 96): `(gain/total_invested)*100`,
computed unconditionally; when `totalInvested = 0` the Python expression is a
0/0 float division producing NaN (here the denominator is just zero). -/
def gainPctFormula (r : SimResult) : ℚ :=
  r.gain / r.totalInvested * 100

/-- The whole pipeline from the raw close series to the simulation result:
rolling mean, dropna, decoration and simulation. -/
def runPipeline (w : ℕ) (θ amt : ℚ) (ps : List PricePoint) : Option SimResult :=
  simulate amt θ (dropnaSMA w ps)

/-- What the data loader hands over (app.py line 24, after the column
flatten): a frame that may be empty and may lack a `Close` column. -/
structure RawData where
  hasClose : Bool
  rows : List PricePoint
deriving DecidableEq

/-- Outcome of the load-and-check stage: either the run proceeds into the
signal computation with a series and the warnings shown so far, or it halts
at `st.stop()` after an error message (app.py line 42). -/
inductive LoadOutcome where
  | proceed (warnings : List String) (rows : List PricePoint)
  | halted (message : String)
deriving DecidableEq

/-- The warning of app.py line 32, shown when the fallback fires. -/
def fallbackWarning : String :=
  "Falling back to demo data."

/-- The error of app.py line 41, shown just before `st.stop()`. -/
def noDataError : String :=
  "No valid price data available for VGS. Please try again later."

/-- The deterministic demo series of app.py lines 33-36 (`np.random.seed(42)`
followed by a cumulative random walk over the fixed date range). The walk is
floating-point, so its exact values are not reproduced here; the claims
depend only on the fallback being one fixed, non-empty close series, which
this concrete stand-in is. -/
def demoData : List PricePoint :=
  [⟨0, 100⟩, ⟨1, 101⟩, ⟨2, 100⟩, ⟨3, 102⟩]

/-- app.py lines 30-36: when the downloaded frame is empty or has no `Close`
column, warn and substitute the demo series; otherwise keep the frame. -/
def fallbackStage (raw : RawData) : List String × RawData :=
  if raw.rows.isEmpty || !raw.hasClose then ([fallbackWarning], ⟨true, demoData⟩)
  else ([], raw)

/-- app.py lines 30-42: the fallback followed by the re-check that halts the
run (`st.error` + `st.stop`) when the series is still unusable; only a
surviving series reaches the signal computation of lines 44 onward. -/
def loadStage (raw : RawData) : LoadOutcome :=
  match fallbackStage raw with
  | (warnings, d) =>
    if d.rows.isEmpty || !d.hasClose then .halted noDataError
    else .proceed warnings d.rows

/-- A 5-row series with constant close 100: with `smaWindow = 5` and
`threshold = -3` it produces no BUY row at all. -/
def exNoBuy : List PricePoint :=
  [⟨0, 100⟩, ⟨1, 100⟩, ⟨2, 100⟩, ⟨3, 100⟩, ⟨4, 100⟩]

/-- The result the simulation reports on `exNoBuy`: nothing invested, no
units, last close 100, zero value and zero gain. -/
def exNoBuyResult : SimResult :=
  ⟨0, 0, 100, 0, 0⟩

/-- Four decorated rows, one per week, each strictly before its week's
Friday anchor (anchors 4, 11, 18, 25; the only row on an anchor is date 4).
Weekly closes 100, 90, 80, 70 give three consecutive negative weekly
returns, so week 3 is flagged — but its anchor, day 25, is not a row. -/
def exMissedAnchor : List DecRow :=
  [⟨4, 100, 100⟩, ⟨10, 90, 100⟩, ⟨17, 80, 100⟩, ⟨24, 70, 100⟩]

/-- Like `exMissedAnchor`, but the last row sits exactly on its week's
Friday anchor (day 25), so the flagged week does mark a daily row. -/
def exOnAnchor : List DecRow :=
  [⟨4, 100, 100⟩, ⟨10, 90, 100⟩, ⟨17, 80, 100⟩, ⟨25, 70, 100⟩]

/-! ### Helper lemmas -/

/-- The sum of a prefix of a list, written positionally. Out-of-range
positions contribute the default `0`, so no length hypothesis is needed. -/
theorem sum_take_eq_sum_getD (l : List ℚ) (b : ℕ) :
    (l.take b).sum = ∑ j ∈ Finset.range b, l.getD j 0 := by
  induction l generalizing b with
  | nil => simp
  | cons x xs ih =>
    cases b with
    | zero => simp
    | succ n =>
      rw [List.take_succ_cons, List.sum_cons, ih n, Finset.sum_range_succ']
      simp [add_comm]

/-- A rolling-window slice of a list, written positionally. -/
theorem sum_slice_eq_sum_getD (l : List ℚ) (i w : ℕ) (hw : w ≤ i + 1) :
    ((l.take (i + 1)).drop (i + 1 - w)).sum =
      ∑ j ∈ Finset.range w, l.getD (i + 1 - w + j) 0 := by
  rw [List.drop_take, sum_take_eq_sum_getD]
  have hww : i + 1 - (i + 1 - w) = w := by omega
  rw [hww]
  refine Finset.sum_congr rfl fun j _ => ?_
  rw [List.getD_eq_getElem?_getD, List.getD_eq_getElem?_getD, List.getElem?_drop]

/-- The rolling-mean column at a position inside the series. -/
theorem rollingMean_getD (w : ℕ) (closes : List ℚ) (i : ℕ) (hi : i < closes.length) :
    (rollingMean w closes).getD i none =
      if w ≤ i + 1 then
        some (((closes.take (i + 1)).drop (i + 1 - w)).sum / (w : ℚ))
      else none := by
  unfold rollingMean
  rw [List.getD_eq_getElem?_getD, List.getElem?_map, List.getElem?_range hi]
  rfl

/-- Every row kept by `dropnaSMA` is a price point of the input at some
position `i` with at least `w` observations available, and its `sma` field
is the rolling mean at that position. -/
theorem mem_dropnaSMA (w : ℕ) (ps : List PricePoint) (r : DecRow)
    (hr : r ∈ dropnaSMA w ps) :
    ∃ i, ∃ hi : i < ps.length, w ≤ i + 1 ∧ r.date = ps[i].date ∧ r.close = ps[i].close ∧
      r.sma = (((ps.map (·.close)).take (i + 1)).drop (i + 1 - w)).sum / (w : ℚ) := by
  unfold dropnaSMA at hr
  rw [List.mem_filterMap] at hr
  obtain ⟨pr, hpr, heq⟩ := hr
  rw [List.mem_iff_getElem] at hpr
  obtain ⟨i, hlen, hget⟩ := hpr
  have hips : i < ps.length := by
    have := hlen
    rw [List.length_zip] at this
    exact lt_of_lt_of_le this (min_le_left _ _)
  have hirm : i < (rollingMean w (ps.map (·.close))).length := by
    have := hlen
    rw [List.length_zip] at this
    exact lt_of_lt_of_le this (min_le_right _ _)
  rw [List.getElem_zip] at hget
  have hsnd : pr.2 = (rollingMean w (ps.map (·.close))).getD i none := by
    rw [List.getD_eq_getElem?_getD, List.getElem?_eq_getElem hirm, ← hget]
    rfl
  have hmapmem : i < (ps.map (·.close)).length := by
    rw [List.length_map]; exact hips
  rw [rollingMean_getD w _ i hmapmem] at hsnd
  by_cases hcond : w ≤ i + 1
  · rw [if_pos hcond] at hsnd
    refine ⟨i, hips, hcond, ?_, ?_, ?_⟩ <;>
    · rw [hsnd] at heq
      simp only [Option.map_some'] at heq
      have hfst : pr.1 = ps[i] := by rw [← hget]
      rw [hfst] at heq
      cases heq
      rfl
  · rw [if_neg hcond] at hsnd
    rw [hsnd] at heq
    simp at heq

/-- Positional lookup in the mapped close column. -/
theorem getD_map_close (ps : List PricePoint) (idx : ℕ) (h : idx < ps.length) :
    (ps.map (·.close)).getD idx 0 = ps[idx].close := by
  have hm : idx < (ps.map (·.close)).length := by rw [List.length_map]; exact h
  rw [List.getD_eq_getElem?_getD, List.getElem?_eq_getElem hm, List.getElem_map]
  rfl

/-- Summing an if-then-else column is summing over the rows the test keeps. -/
theorem sum_map_ite_eq_filter {α : Type} (f : α → Bool) (g : α → ℚ) (l : List α) :
    (l.map fun x => if f x then g x else 0).sum = ((l.filter f).map g).sum := by
  induction l with
  | nil => rfl
  | cons x xs ih => by_cases h : f x = true <;> simp [List.filter_cons, h, ih]

/-- Summing a constant if-then-else column counts the rows the test keeps. -/
theorem sum_map_ite_eq_count {α : Type} (f : α → Bool) (c : ℚ) (l : List α) :
    (l.map fun x => if f x then c else 0).sum = c * (l.countP f : ℚ) := by
  induction l with
  | nil => simp
  | cons x xs ih =>
    by_cases h : f x = true <;> simp [List.countP_cons, h, ih] <;> push_cast <;> ring

/-- Length of the weekly resample column. -/
theorem length_weeklyCloses (rows : List DecRow) :
    (weeklyCloses rows).length = numWeeks rows := by
  unfold weeklyCloses
  rw [List.length_map, List.length_range]

/-- Length of the weekly returns column. -/
theorem length_weeklyReturns (vs : List (Option ℚ)) :
    (weeklyReturns vs).length = vs.length := by
  unfold weeklyReturns
  rw [List.length_map, List.length_range]

/-! ### Claim theorems -/

/-- C5: for every price series and window length, the moving average at
0-indexed position `i` is the arithmetic mean of the `window` closes
`close[i-window+1 .. i]` (a trailing inclusive window) whenever
`i ≥ window - 1`, and is undefined (`none`) for `i < window - 1`. -/
theorem C5_rolling_mean_trailing_window (w : ℕ) (closes : List ℚ) (i : ℕ)
    (hw : 0 < w) (hi : i < closes.length) :
    (w - 1 ≤ i → (rollingMean w closes).getD i none =
        some ((∑ j ∈ Finset.range w, closes.getD (i + 1 - w + j) 0) / (w : ℚ))) ∧
    (i < w - 1 → (rollingMean w closes).getD i none = none) := by
  constructor
  · intro hge
    have hcond : w ≤ i + 1 := by omega
    rw [rollingMean_getD w closes i hi, if_pos hcond, sum_slice_eq_sum_getD closes i w hcond]
  · intro hlt
    have hcond : ¬ w ≤ i + 1 := by omega
    rw [rollingMean_getD w closes i hi, if_neg hcond]

/-- C6: every row of the filtered DecoratedSeries carries a defined close
and a defined moving average — the trailing mean at a source position
`i ≥ w - 1` — and the pipeline's simulation consumes exactly this filtered
series. -/
theorem C6_filtered_rows_have_defined_sma (w : ℕ) (θ amt : ℚ) (ps : List PricePoint)
    (hw : 0 < w) :
    (∀ r ∈ dropnaSMA w ps, ∃ i, ∃ hi : i < ps.length, w - 1 ≤ i ∧
        r.date = ps[i].date ∧ r.close = ps[i].close ∧
        r.sma = (∑ j ∈ Finset.range w, (ps.map (·.close)).getD (i + 1 - w + j) 0) / (w : ℚ)) ∧
    runPipeline w θ amt ps = simulate amt θ (dropnaSMA w ps) := by
  refine ⟨fun r hr => ?_, rfl⟩
  obtain ⟨i, hi, hcond, hd, hc, hs⟩ := mem_dropnaSMA w ps r hr
  refine ⟨i, hi, by omega, hd, hc, ?_⟩
  rw [hs, sum_slice_eq_sum_getD _ i w hcond]

/-- C7: on every row of the DecoratedSeries, the BUY flag is the disjunction
of the threshold test and the downtrend flag, hence monotone in both: either
condition alone forces BUY, and BUY is never false while one of them holds. -/
theorem C7_buy_flag_is_or (θ : ℚ) (rows : List DecRow) (r : DecRow) (hr : r ∈ rows) :
    (buyFlag θ rows r = true ↔ (pctBelow r < θ ∨ downtrendFlag rows r.date = true)) ∧
    (pctBelow r < θ → buyFlag θ rows r = true) ∧
    (downtrendFlag rows r.date = true → buyFlag θ rows r = true) ∧
    (buyFlag θ rows r = false → ¬ pctBelow r < θ ∧ downtrendFlag rows r.date = false) := by
  unfold buyFlag
  refine ⟨by simp, ?_, ?_, ?_⟩ <;> simp <;> tauto

/-- C8: on every row of the filtered series built from positive closes, the
percent-below-average column is negative exactly when the close is below the
moving average. -/
theorem C8_pct_below_negative_iff (w : ℕ) (ps : List PricePoint) (hw : 0 < w)
    (hpos : ∀ p ∈ ps, 0 < p.close) (r : DecRow) (hr : r ∈ dropnaSMA w ps) :
    pctBelow r < 0 ↔ r.close < r.sma := by
  obtain ⟨i, hi, hcond, hd, hc, hs⟩ := mem_dropnaSMA w ps r hr
  have hsma : 0 < r.sma := by
    rw [hs, sum_slice_eq_sum_getD _ i w hcond]
    apply div_pos
    · apply Finset.sum_pos
      · intro j hj
        rw [Finset.mem_range] at hj
        have hidx : i + 1 - w + j < ps.length := by omega
        rw [getD_map_close ps _ hidx]
        exact hpos _ (List.getElem_mem hidx)
      · exact ⟨0, Finset.mem_range.mpr hw⟩
    · exact_mod_cast hw
  unfold pctBelow
  rw [div_mul_eq_mul_div, div_neg_iff]
  constructor
  · rintro (⟨h1, h2⟩ | ⟨h1, h2⟩)
    · exact absurd h2 (not_lt.mpr hsma.le)
    · nlinarith
  · intro h
    exact Or.inr ⟨by nlinarith, hsma⟩

/-- C9: a non-empty series shorter than the SMA window is filtered down to
nothing, and the simulation — whose last-close read indexes the filtered
series — is undefined: series length at least the window is an unstated
precondition. -/
theorem C9_short_series_undefined (w : ℕ) (θ amt : ℚ) (ps : List PricePoint)
    (hw : 0 < w) (hne : ps ≠ []) (hlen : ps.length < w) :
    dropnaSMA w ps = [] ∧ runPipeline w θ amt ps = none := by
  have hdrop : dropnaSMA w ps = [] := by
    unfold dropnaSMA
    rw [List.filterMap_eq_nil]
    intro pr hpr
    rw [List.mem_iff_getElem] at hpr
    obtain ⟨i, hil, hget⟩ := hpr
    have hips : i < ps.length := by
      have := hil
      rw [List.length_zip] at this
      exact lt_of_lt_of_le this (min_le_left _ _)
    have hirm : i < (rollingMean w (ps.map (·.close))).length := by
      have := hil
      rw [List.length_zip] at this
      exact lt_of_lt_of_le this (min_le_right _ _)
    rw [List.getElem_zip] at hget
    have hgetD : (rollingMean w (ps.map (·.close))).getD i none = none := by
      rw [rollingMean_getD w _ i (by rw [List.length_map]; exact hips),
        if_neg (by omega)]
    have hrm : (rollingMean w (ps.map (·.close)))[i] = none := by
      rw [List.getD_eq_getElem?_getD, List.getElem?_eq_getElem hirm] at hgetD
      simpa using hgetD
    have hsnd : pr.2 = none := by rw [← hget]; exact hrm
    rw [hsnd]
    rfl
  refine ⟨hdrop, ?_⟩
  unfold runPipeline
  rw [hdrop]
  rfl

/-- C2: on every non-empty DecoratedSeries the simulation satisfies exactly
the dollar-cost-averaging equations: invested amount times BUY count,
units summed over BUY rows at their closes, mark-to-market at the last
close, and gain as the difference; non-BUY rows contribute nothing. -/
theorem C2_simulation_equations (amt θ : ℚ) (rows : List DecRow) (hne : rows ≠ []) :
    ∃ res, simulate amt θ rows = some res ∧
      res.totalInvested = amt * (rows.countP (buyFlag θ rows) : ℚ) ∧
      res.totalUnits = ((rows.filter (buyFlag θ rows)).map fun r => amt / r.close).sum ∧
      res.currentValue = res.totalUnits * ((rows.map (·.close)).getLast?.getD 0) ∧
      res.gain = res.currentValue - res.totalInvested := by
  have hsome : ((rows.map (·.close)).getLast?).isSome = true := by
    rw [List.getLast?_isSome]
    simp [hne]
  obtain ⟨price, hp⟩ := Option.isSome_iff_exists.mp hsome
  unfold simulate
  rw [hp]
  refine ⟨_, rfl, ?_, ?_, rfl, rfl⟩
  · exact sum_map_ite_eq_count _ amt rows
  · exact sum_map_ite_eq_filter _ _ rows

/-- C3: a daily date of the filtered series carries the downtrend flag
exactly when it equals the Friday anchor date of a weekly bin `k ≥ 2` whose
weekly percent returns at `k`, `k-1` and `k-2` are all defined and negative;
every other daily date — every non-anchor date in particular — is
unflagged. -/
theorem C3_downtrend_iff_flagged_anchor (rows : List DecRow) (d : ℕ)
    (hd : d ∈ rows.map (·.date)) :
    downtrendFlag rows d = true ↔
      ∃ k, k < numWeeks rows ∧ 2 ≤ k ∧ d = firstAnchor rows + 7 * k ∧
        optNeg (retAt rows k) = true ∧ optNeg (retAt rows (k - 1)) = true ∧
        optNeg (retAt rows (k - 2)) = true := by
  unfold downtrendFlag flaggedAnchorDates
  rw [List.elem_iff]
  unfold weeklyFlags
  rw [length_weeklyReturns, length_weeklyCloses, List.zip_map', List.filterMap_map,
    List.mem_filterMap]
  constructor
  · rintro ⟨k, hk, hif⟩
    rw [List.mem_range] at hk
    simp only [Function.comp] at hif
    by_cases hf : (decide (2 ≤ k) && optNeg ((weeklyReturns (weeklyCloses rows)).getD k none)
        && optNeg ((weeklyReturns (weeklyCloses rows)).getD (k - 1) none)
        && optNeg ((weeklyReturns (weeklyCloses rows)).getD (k - 2) none)) = true
    · rw [if_pos hf] at hif
      rw [Bool.and_eq_true, Bool.and_eq_true, Bool.and_eq_true, decide_eq_true_iff] at hf
      obtain ⟨⟨⟨h2, hr0⟩, hr1⟩, hr2⟩ := hf
      exact ⟨k, hk, h2, (Option.some_inj.mp hif).symm, hr0, hr1, hr2⟩
    · rw [if_neg hf] at hif
      cases hif
  · rintro ⟨k, hk, h2, hdate, hr0, hr1, hr2⟩
    refine ⟨k, List.mem_range.mpr hk, ?_⟩
    simp only [Function.comp]
    rw [if_pos]
    · rw [hdate]
    · rw [Bool.and_eq_true, Bool.and_eq_true, Bool.and_eq_true, decide_eq_true_iff]
      exact ⟨⟨⟨h2, hr0⟩, hr1⟩, hr2⟩

/-- C4: when the loaded frame is empty or lacks a close column, no signal
computation runs on it — the deterministic synthetic demo series is
substituted and the substitution is flagged by the fallback warning; the
halt-with-error branch guards the (unreachable) case of the substitute
itself being unusable. -/
theorem C4_bad_input_flagged_fallback (raw : RawData)
    (hbad : raw.rows = [] ∨ raw.hasClose = false) :
    loadStage raw = .proceed [fallbackWarning] demoData := by
  unfold loadStage fallbackStage
  have hcond : (raw.rows.isEmpty || !raw.hasClose) = true := by
    rcases hbad with h | h <;> simp [h]
  rw [hcond]
  simp [demoData]

/-- C1 (evaluation at the failing input): with no BUY row the simulation
does report zero units, zero invested and zero value — but the script then
still computes the percentage delta of line 96, `gain / totalInvested *
100`, whose denominator at this input is exactly zero (in NumPy a 0/0 float
division shown as NaN, not an undefined/not-applicable report). -/
theorem C1_no_buy_zero_totals_yet_divided :
    runPipeline 5 (-3) 1500 exNoBuy = some exNoBuyResult ∧
    exNoBuyResult.totalUnits = 0 ∧ exNoBuyResult.totalInvested = 0 ∧
    exNoBuyResult.currentValue = 0 ∧
    gainPctFormula exNoBuyResult = exNoBuyResult.gain / 0 * 100 := by
  refine ⟨?_, rfl, rfl, rfl, rfl⟩
  norm_num [runPipeline, simulate, dropnaSMA, rollingMean, exNoBuy, exNoBuyResult,
    buyFlag, pctBelow, downtrendFlag, flaggedAnchorDates, weeklyFlags, weeklyReturns,
    weeklyCloses, numWeeks, firstAnchor, binLast, anchor, optNeg, retOf,
    List.range_succ, List.filterMap_cons, List.sum_cons]

/-- C10: an input on which a week satisfying the three-negative-weekly-
returns rule (week 3) contributes no flagged daily date: its anchor, day
25, is not a row of the daily series, so the flag is silently dropped even
though the weekly return came from that week's last available close. -/
theorem C10_flagged_week_no_daily_mark :
    (weeklyFlags (weeklyReturns (weeklyCloses exMissedAnchor))).getD 3 false = true ∧
    (firstAnchor exMissedAnchor + 7 * 3) ∉ exMissedAnchor.map (·.date) ∧
    exMissedAnchor.map (fun r => downtrendFlag exMissedAnchor r.date) =
      [false, false, false, false] := by
  refine ⟨?_, by norm_num [exMissedAnchor, firstAnchor, anchor], ?_⟩ <;>
  norm_num [exMissedAnchor, weeklyFlags, weeklyReturns, weeklyCloses, numWeeks,
    firstAnchor, binLast, anchor, optNeg, retOf, downtrendFlag, flaggedAnchorDates,
    List.range_succ, List.filterMap_cons]

/-! ### Witnesses: the claim theorems applied at concrete inputs -/

/-- C2 applied to a one-row series. -/
theorem C2_simulation_equations_witness :
    ∃ res, simulate 1500 (-3) [(⟨0, 90, 100⟩ : DecRow)] = some res ∧
      res.totalInvested =
        1500 * (([(⟨0, 90, 100⟩ : DecRow)].countP (buyFlag (-3) [⟨0, 90, 100⟩])) : ℚ) ∧
      res.totalUnits =
        (([(⟨0, 90, 100⟩ : DecRow)].filter (buyFlag (-3) [⟨0, 90, 100⟩])).map
          fun r => 1500 / r.close).sum ∧
      res.currentValue =
        res.totalUnits * (([(⟨0, 90, 100⟩ : DecRow)].map (·.close)).getLast?.getD 0) ∧
      res.gain = res.currentValue - res.totalInvested :=
  C2_simulation_equations 1500 (-3) [⟨0, 90, 100⟩] (by simp)

/-- C3 applied to the series whose last row sits on the flagged anchor. -/
theorem C3_downtrend_iff_witness :
    downtrendFlag exOnAnchor 25 = true ↔
      ∃ k, k < numWeeks exOnAnchor ∧ 2 ≤ k ∧ 25 = firstAnchor exOnAnchor + 7 * k ∧
        optNeg (retAt exOnAnchor k) = true ∧ optNeg (retAt exOnAnchor (k - 1)) = true ∧
        optNeg (retAt exOnAnchor (k - 2)) = true :=
  C3_downtrend_iff_flagged_anchor exOnAnchor 25 (by decide)

/-- C4 applied to an empty download. -/
theorem C4_bad_input_flagged_fallback_witness :
    loadStage ⟨true, []⟩ = .proceed [fallbackWarning] demoData :=
  C4_bad_input_flagged_fallback ⟨true, []⟩ (Or.inl rfl)

/-- C5 applied to a four-point series with window 2 at position 1. -/
theorem C5_rolling_mean_witness :
    (2 - 1 ≤ 1 → (rollingMean 2 [1, 2, 3, 4]).getD 1 none =
        some ((∑ j ∈ Finset.range 2, ([1, 2, 3, 4] : List ℚ).getD (1 + 1 - 2 + j) 0) /
          (2 : ℚ))) ∧
    (1 < 2 - 1 → (rollingMean 2 [1, 2, 3, 4]).getD 1 none = none) :=
  C5_rolling_mean_trailing_window 2 [1, 2, 3, 4] 1 (by norm_num) (by simp)

/-- C6 applied to the five-row constant series with window 5. -/
theorem C6_filtered_rows_witness :
    (∀ r ∈ dropnaSMA 5 exNoBuy, ∃ i, ∃ hi : i < exNoBuy.length, 5 - 1 ≤ i ∧
        r.date = exNoBuy[i].date ∧ r.close = exNoBuy[i].close ∧
        r.sma = (∑ j ∈ Finset.range 5, (exNoBuy.map (·.close)).getD (i + 1 - 5 + j) 0) /
          (5 : ℚ)) ∧
    runPipeline 5 (-3) 1500 exNoBuy = simulate 1500 (-3) (dropnaSMA 5 exNoBuy) :=
  C6_filtered_rows_have_defined_sma 5 (-3) 1500 exNoBuy (by norm_num)

/-- C7 applied to the row on the flagged anchor. -/
theorem C7_buy_flag_witness :
    (buyFlag (-3) exOnAnchor ⟨25, 70, 100⟩ = true ↔
      (pctBelow ⟨25, 70, 100⟩ < -3 ∨
        downtrendFlag exOnAnchor (⟨25, 70, 100⟩ : DecRow).date = true)) ∧
    (pctBelow ⟨25, 70, 100⟩ < -3 → buyFlag (-3) exOnAnchor ⟨25, 70, 100⟩ = true) ∧
    (downtrendFlag exOnAnchor (⟨25, 70, 100⟩ : DecRow).date = true →
      buyFlag (-3) exOnAnchor ⟨25, 70, 100⟩ = true) ∧
    (buyFlag (-3) exOnAnchor ⟨25, 70, 100⟩ = false →
      ¬ pctBelow ⟨25, 70, 100⟩ < -3 ∧
        downtrendFlag exOnAnchor (⟨25, 70, 100⟩ : DecRow).date = false) :=
  C7_buy_flag_is_or (-3) exOnAnchor ⟨25, 70, 100⟩ (by decide)

/-- C8 applied to the filtered row of the constant series. -/
theorem C8_pct_below_witness :
    pctBelow ⟨4, 100, 100⟩ < 0 ↔
      (⟨4, 100, 100⟩ : DecRow).close < (⟨4, 100, 100⟩ : DecRow).sma :=
  C8_pct_below_negative_iff 5 exNoBuy (by norm_num) (by decide) ⟨4, 100, 100⟩
    (by norm_num [dropnaSMA, rollingMean, exNoBuy, List.range_succ, List.filterMap_cons])

/-- C9 applied to a one-row series with window 5. -/
theorem C9_short_series_witness :
    dropnaSMA 5 [(⟨0, 100⟩ : PricePoint)] = [] ∧
    runPipeline 5 (-3) 1500 [⟨0, 100⟩] = none :=
  C9_short_series_undefined 5 (-3) 1500 [⟨0, 100⟩] (by norm_num) (by simp) (by simp)

end VGS
